import Mathlib

/-!
Shallow embedding of `bb-crawler/crawler.py` (class `BlackboardCrawler`).

HTML/XML documents are modelled at the granularity the code inspects them:
a BeautifulSoup `find` that the code applies becomes an `Option` field of a
record, Python dicts become insertion-ordered association lists with
replace-on-existing-key semantics, and the network is an oracle supplied in
an environment record.  Python string helpers (`strip`, `replace`, `lower`,
`startswith`, `in`) are re-implemented over `List Char`.
-/

/-! ## Python string primitives -/

/-- Characters removed by Python `str.strip()` with no arguments. -/
def isPySpace (c : Char) : Bool :=
  c = ' ' || c = '\t' || c = '\n' || c = '\r' || c = '\x0b' || c = '\x0c'

/-- Python `str.strip()`: drop leading and trailing whitespace. -/
def pyStrip (s : String) : String :=
  String.mk (((s.toList.dropWhile isPySpace).reverse.dropWhile isPySpace).reverse)

/-- Try to remove `p` from the front of `cs`; `some rest` on success. -/
def stripPre : List Char → List Char → Option (List Char)
  | [], cs => some cs
  | _ :: _, [] => none
  | p :: ps, c :: cs => if p = c then stripPre ps cs else none

/-- Boolean test that `p` is an initial segment of `cs`. -/
def hasPre : List Char → List Char → Bool
  | [], _ => true
  | _ :: _, [] => false
  | p :: ps, c :: cs => p = c && hasPre ps cs

/-- Contiguous-substring search over character lists. -/
def containsSubL (pat : List Char) : List Char → Bool
  | [] => hasPre pat []
  | c :: cs => hasPre pat (c :: cs) || containsSubL pat cs

/-- Python `pat in s` for strings. -/
def containsSub (pat s : String) : Bool :=
  containsSubL pat.toList s.toList

/-- Python `s.startswith(p)`. -/
def startsWithStr (p s : String) : Bool :=
  hasPre p.toList s.toList

/-- Python `s.replace(" ", "_")` as used for filesystem names. -/
def sanitize (s : String) : String :=
  String.mk (s.toList.map fun c => if c = ' ' then '_' else c)

/-- Python `str.lower()` on the ASCII season words. -/
def lowerStr (l : List Char) : List Char :=
  l.map Char.toLower

/-- Python `str.lower()` on a whole string. -/
def lowerAscii (s : String) : String :=
  String.mk (lowerStr s.toList)

/-- Python slice `[-2:]` on a list of characters. -/
def lastTwo (l : List Char) : List Char :=
  l.drop (l.length - 2)

/-- Portal origin `https://bb.sustech.edu.cn` (`self.base_url`). -/
def bbBase : String := "https://bb.sustech.edu.cn"

/-! ## Insertion-ordered dictionaries (Python `dict`) -/

/-- Python `d[k]` lookup (first — and only — occurrence of the key). -/
def lookupA {α β : Type} [DecidableEq α] : List (α × β) → α → Option β
  | [], _ => none
  | (k, v) :: rest, k' => if k = k' then some v else lookupA rest k'

/-- Python `d[k] = v`: replace in place if the key exists, else append. -/
def insertReplace {α β : Type} [DecidableEq α] : List (α × β) → α → β → List (α × β)
  | [], k, v => [(k, v)]
  | (k0, v0) :: rest, k, v =>
    if k0 = k then (k, v) :: rest else (k0, v0) :: insertReplace rest k v

/-! ## Term-heading pattern (crawler.py lines 131-139)

`re.search(r"（(Spring|Fall|Summer|Winter) (\d{4})）", term_name)` followed by
`season.lower()` and `year[-2:]`. -/

/-- Consume exactly four decimal digits (`\d{4}` of the term regex). -/
def readDigits4 : List Char → Option (List Char × List Char)
  | a :: b :: c :: d :: rest =>
    if a.isDigit && b.isDigit && c.isDigit && d.isDigit then some ([a, b, c, d], rest)
    else none
  | _ => none

/-- Match one season alternative, a space, four digits and the closing `）`
at the head of `cs`; on success return the season and year groups. -/
def matchSeason (sn : List Char) (cs : List Char) : Option (List Char × List Char) :=
  match stripPre sn cs with
  | none => none
  | some r1 =>
    match r1 with
    | [] => none
    | c0 :: r2 =>
      if c0 = ' ' then
        match readDigits4 r2 with
        | none => none
        | some (yr, r3) =>
          match r3 with
          | [] => none
          | c1 :: _ => if c1 = '）' then some (sn, yr) else none
      else none

/-- Try the four season alternatives in the order of the source regex. -/
def tryPattern (cs : List Char) : Option (List Char × List Char) :=
  match matchSeason "Spring".toList cs with
  | some r => some r
  | none =>
    match matchSeason "Fall".toList cs with
    | some r => some r
    | none =>
      match matchSeason "Summer".toList cs with
      | some r => some r
      | none => matchSeason "Winter".toList cs

/-- `re.search` for the term pattern: leftmost position whose `（` starts a
full match; groups of that match returned. -/
def searchTermPattern : List Char → Option (List Char × List Char)
  | [] => none
  | c :: cs =>
    if c = '（' then
      match tryPattern cs with
      | some r => some r
      | none => searchTermPattern cs
    else searchTermPattern cs

/-- Term key derived from a term heading (crawler.py lines 132-139):
`f"{year[-2:]}{season.lower()}"` on a match, `"unknown"` otherwise. -/
def parseTermName (s : String) : String :=
  match searchTermPattern s.toList with
  | some (sn, yr) => String.mk (lastTwo yr ++ lowerStr sn)
  | none => "unknown"

/-! ## Vault page model and `parse_vault` (crawler.py lines 103-202) -/

/-- An `<a href=...>` inside a course's announcement data block. -/
structure AnnAnchor where
  text : String
  href : String
deriving DecidableEq

/-- The `announcements` dict of `parse_vault`: both keys are written on every
iteration, so it holds at most one content/url pair. -/
structure AnnState where
  content : Option String
  url : Option String
deriving DecidableEq

/-- Loop of crawler.py lines 175-177: each anchor overwrites both entries of
the `announcements` dict. -/
def foldAnns (l : List AnnAnchor) : AnnState :=
  l.foldl (fun _ a => ⟨some (pyStrip a.text), some (bbBase ++ pyStrip a.href)⟩) ⟨none, none⟩

/-- One `<li>` of a term's course list: its first `<a href=...>` (text, href)
and, if present, the anchors of its `courseDataBlock` after the
`dataBlockLabel` span has been extracted. -/
structure CourseLi where
  link : Option (String × String)
  dataBlock : Option (List AnnAnchor)
deriving DecidableEq

/-- A stored course record (crawler.py lines 180-186). -/
structure Course where
  name : String
  url : String
  announcement : AnnState
deriving DecidableEq

/-- Body of the course loop (crawler.py lines 153-186): skip items without a
link or whose href mentions an announcement; otherwise build the record. -/
def courseOfLi (li : CourseLi) : Option Course :=
  match li.link with
  | none => none
  | some (txt, href) =>
    if containsSub "announcement" href then none
    else
      some { name := pyStrip txt
             url := bbBase ++ pyStrip href
             announcement :=
               match li.dataBlock with
               | none => ⟨none, none⟩
               | some l => foldAnns l }

/-- A term heading together with its resolved course-list container
(`none` when the anchor id / `termCourses` regex / companion div chain of
crawler.py lines 144-151 does not resolve). -/
structure TermBlock where
  heading : String
  container : Option (List CourseLi)
deriving DecidableEq

/-- Courses contributed by one term block. -/
def coursesOfTerm (t : TermBlock) : List Course :=
  match t.container with
  | none => []
  | some lis => lis.filterMap courseOfLi

/-- The `courses` dict built by `parse_vault`: `courses[term_name] = []`
then per-item appends, i.e. replace-insert of the term's course list. -/
def buildCourses (terms : List TermBlock) : List (String × List Course) :=
  terms.foldl (fun acc t => insertReplace acc (parseTermName t.heading) (coursesOfTerm t)) []

/-- Outcome of `ET.fromstring` on the AJAX response text: a `ParseError`, or
a parsed envelope with its `root.text` and (when that text is parsed as
HTML) the term blocks found in it. -/
inductive XmlOutcome where
  | malformed
  | parsed (rootText : Option String) (terms : List TermBlock)
deriving DecidableEq

/-- Input to `parse_vault`: HTTP status of the AJAX POST and its body. -/
structure VaultEnv where
  status : Nat
  xml : XmlOutcome
deriving DecidableEq

/-- Result type of `parse_vault`: Python `None`, the empty list `[]`, or the
term → courses dict. -/
inductive VaultResult where
  | nullRes
  | emptyList
  | index (d : List (String × List Course))
deriving DecidableEq

/-- `parse_vault` (crawler.py lines 103-202): non-200 status → `[]`;
`ParseError` → `None`; missing/empty `root.text` → `[]`; otherwise the
courses dict. -/
def parse_vault (env : VaultEnv) : VaultResult :=
  if env.status ≠ 200 then .emptyList
  else
    match env.xml with
    | .malformed => .nullRes
    | .parsed none _ => .emptyList
    | .parsed (some t) terms =>
      if t = "" then .emptyList else .index (buildCourses terms)

/-! ## Sidebar model and `extract_sidebar_links` (crawler.py lines 243-284) -/

/-- A sidebar link entry `{"title": ..., "url": ...}`. -/
structure SLink where
  title : String
  url : String
deriving DecidableEq

/-- A value of the `sidebar_menu` dict: a category's link list, or a bare
root url stored under the link's text. -/
inductive MenuVal where
  | links (l : List SLink)
  | url (u : String)
deriving DecidableEq

/-- One direct child `<li>` of the menu: its first `<h3>` descendant's text
and its first `<a href=...>` descendant's (text, href). -/
structure MenuItem where
  heading : Option String
  anchor : Option (String × String)
deriving DecidableEq

/-- The synthesized announcements URL (crawler.py line 275). -/
def annRewriteUrl (cid : String) : String :=
  "https://bb.sustech.edu.cn/webapps/blackboard/execute/announcement?method=search&context=course_entry&course_id="
    ++ cid ++ "&handle=announcements_entry&mode=view"

/-- Python truthiness of the `course_id` variable (`None` or a string). -/
def pyTruthyOpt : Option String → Bool
  | none => false
  | some s => !(s == "")

/-- Link URL of a sidebar item (crawler.py lines 271-275): origin-prefixed
href, except the rewritten Announcements URL when the text mentions
`Announcements` and a course id was found. -/
def linkUrlFor (cidO : Option String) (txt href : String) : String :=
  if containsSub "Announcements" txt && pyTruthyOpt cidO then annRewriteUrl (cidO.getD "")
  else bbBase ++ href

/-- Python `sidebar_menu[current_category].append(link)`: the key is looked
up and its `links` value extended (the key always exists and holds a link
list when the source reaches this statement). -/
def appendSLink : List (String × MenuVal) → String → SLink → List (String × MenuVal)
  | [], _, _ => []
  | (k0, v0) :: rest, k, lnk =>
    if k0 = k then
      match v0 with
      | .links l => (k0, MenuVal.links (l ++ [lnk])) :: rest
      | .url u => (k0, .url u) :: rest
    else (k0, v0) :: appendSLink rest k lnk

/-- Loop of crawler.py lines 258-282 over the menu's direct child items,
carrying `current_category` (Python `None` or the last heading's text; the
guard `if current_category:` is string truthiness, so an empty heading text
behaves like no category). -/
def sidebarGo (cidO : Option String) (cur : Option String)
    (acc : List (String × MenuVal)) : List MenuItem → List (String × MenuVal)
  | [] => acc
  | it :: rest =>
    match it.heading with
    | some h => sidebarGo cidO (some (pyStrip h)) (insertReplace acc (pyStrip h) (MenuVal.links [])) rest
    | none =>
      match it.anchor with
      | none => sidebarGo cidO cur acc rest
      | some (txt, href) =>
        let t := pyStrip txt
        let u := linkUrlFor cidO t href
        match cur with
        | some c =>
          if c = "" then sidebarGo cidO cur (insertReplace acc t (MenuVal.url u)) rest
          else sidebarGo cidO cur (appendSLink acc c ⟨t, u⟩) rest
        | none => sidebarGo cidO cur (insertReplace acc t (MenuVal.url u)) rest

/-- `extract_sidebar_links` on the located menu: distribute the items
starting with no active category and an empty dict. -/
def extract_sidebar_links (cidO : Option String) (items : List MenuItem) :
    List (String × MenuVal) :=
  sidebarGo cidO none [] items

/-! ## Content-page model and `extract_file_structure` (crawler.py 321-367) -/

/-- An anchor candidate inside a nested file `<li>` (its first `a[href]`). -/
structure FileAnchor where
  text : String
  href : String
deriving DecidableEq

/-- A stored file reference `{"name": ..., "url": ...}`. -/
structure FileRef where
  name : String
  url : String
deriving DecidableEq

/-- Relative-URL rebase (crawler.py lines 357-358). -/
def rebaseUrl (u : String) : String :=
  if startsWithStr "http" u then u else bbBase ++ u

/-- File loop of crawler.py lines 345-362: per nested `<li>` take its first
anchor, drop fragment/`close` hrefs, rebase, keep only non-empty names. -/
def extractFilesList (ans : List (Option FileAnchor)) : List FileRef :=
  ans.flatMap fun a? =>
    match a? with
    | none => []
    | some a =>
      let nm := pyStrip a.text
      let u := pyStrip a.href
      if startsWithStr "#" u || containsSub "close" u then []
      else if nm = "" then [] else [⟨nm, rebaseUrl u⟩]

/-- Modelled from the spec: the file anchors that §4.4 / §8 of the spec say
survive filtering — exclude fragment (`#...`) and `close` hrefs, keep the
rest in document order with relative hrefs rebased — further restricted (the
amendment) to anchors whose stripped display text is non-empty. -/
def keptFilesSpec (ans : List (Option FileAnchor)) : List FileRef :=
  ((((ans.filterMap id).map fun a => (pyStrip a.text, pyStrip a.href)).filter
      (fun p => !(startsWithStr "#" p.2 || containsSub "close" p.2))).filter
      (fun p => !(p.1 == ""))).map fun p => ⟨p.1, rebaseUrl p.2⟩

/-- A stored page entry `{"text": ..., "files": [...]}`. -/
structure Entry where
  text : String
  files : List FileRef
deriving DecidableEq

/-- One `li.clearfix.liItem.read` content item: its first `<h3>` text, the
text of its `details` div, and the anchor of each nested `<li>`. -/
structure PageItem where
  weekTitle : Option String
  details : Option String
  fileAnchors : List (Option FileAnchor)
deriving DecidableEq

/-- `extract_file_structure` (crawler.py lines 321-367): items without a
heading are skipped; duplicate titles overwrite (dict assignment). -/
def extract_file_structure (items : List PageItem) : List (String × Entry) :=
  items.foldl
    (fun acc it =>
      match it.weekTitle with
      | none => acc
      | some wt =>
        insertReplace acc (pyStrip wt) ⟨it.details.getD "", extractFilesList it.fileAnchors⟩)
    []

/-! ## `download_file` (crawler.py lines 369-413) -/

/-- Outcome of one `session.get`: a response with status and body, an
`SSLError`, or another `RequestException`. -/
inductive DlOutcome where
  | ok (status : Nat) (body : List Nat)
  | sslErr
  | reqErr
deriving DecidableEq

/-- Transport/storage oracle for one `download_file` call: outcome of the
verification-enabled GET, outcome of the verification-disabled retry (used
only after an `SSLError`), and the chunk index at which the local write
raises (`none` = write succeeds). -/
structure DlEnv where
  first : DlOutcome
  second : DlOutcome
  writeFail : Option Nat
deriving DecidableEq

/-- What happened to the destination file. -/
inductive WriteEffect where
  | untouched
  | wrote (bytes : List Nat)
deriving DecidableEq

/-- Result of `download_file`: returned boolean, the `verify=` flag of each
GET actually issued, and the destination's contents. -/
structure DlResult where
  success : Bool
  verifyFlags : List Bool
  effect : WriteEffect
deriving DecidableEq

/-- `response.raise_for_status()` raises for 4xx/5xx codes. -/
def httpErrStatus (s : Nat) : Bool :=
  400 ≤ s && s < 600

/-- Streaming write phase (crawler.py lines 396-413): full body on success,
a prefix then `False` when the write raises mid-stream. -/
def writeBody (env : DlEnv) (flags : List Bool) (body : List Nat) : DlResult :=
  match env.writeFail with
  | none => ⟨true, flags, .wrote body⟩
  | some k => ⟨false, flags, .wrote (body.take k)⟩

/-- `download_file` (crawler.py lines 369-413).  The first GET runs with
`verify=True` and `raise_for_status`; an `SSLError` triggers one retry with
`verify=False` whose response is written without any status check; any other
`RequestException` on either attempt returns `False`. -/
def download_file (env : DlEnv) : DlResult :=
  match env.first with
  | .ok st body =>
    if httpErrStatus st then ⟨false, [true], .untouched⟩
    else writeBody env [true] body
  | .sslErr =>
    match env.second with
    | .ok _ body => writeBody env [true, false] body
    | .sslErr => ⟨false, [true, false], .untouched⟩
    | .reqErr => ⟨false, [true, false], .untouched⟩
  | .reqErr => ⟨false, [true], .untouched⟩

/-! ## `login` (crawler.py lines 37-89) -/

/-- Network actions `login` can perform, in order. -/
inductive LoginAct where
  | getLoginPage
  | getCasForm
  | postCreds
deriving DecidableEq

/-- One `<input>` of the CAS form: its `name` and optional `value`. -/
structure CasInput where
  name : String
  value : Option String
deriving DecidableEq

/-- Inputs `login` consumes: the parsed CAS form and the body text of the
credential-submission response. -/
structure LoginEnv where
  casInputs : List CasInput
  postRespText : String

/-- `cas_soup.find("input", {"name": name})` then `.get("value")`. -/
def findInputVal (nm : String) (l : List CasInput) : Option (Option String) :=
  (l.find? fun i => i.name = nm).map fun i => i.value

/-- Success heuristic of crawler.py line 84. -/
def loginSuccessText (s : String) : Bool :=
  containsSub "登出" s || containsSub "logout" (lowerAscii s)

/-- Result of `login`: the returned boolean (the sole authenticated-state
marker) and the network actions performed. -/
structure LoginRes where
  success : Bool
  actions : List LoginAct
deriving DecidableEq

/-- `login` (crawler.py lines 37-89): fetch the login page and the CAS form;
without an `execution` input return `False` at once; otherwise POST the
credentials and apply the logout-marker heuristic. -/
def login (env : LoginEnv) : LoginRes :=
  match findInputVal "execution" env.casInputs with
  | none => ⟨false, [.getLoginPage, .getCasForm]⟩
  | some _ => ⟨loginSuccessText env.postRespText, [.getLoginPage, .getCasForm, .postCreds]⟩

/-! ## `crawl` orchestrator (crawler.py lines 415-477) -/

/-- A fetched course landing page: the content menu's direct child items
(`none` when `courseMenuPalette_contents` is absent) and the course id
regex-extracted from the page body. -/
structure CoursePage where
  menuItems : Option (List MenuItem)
  courseId : Option String

/-- Environment of one crawl: the vault AJAX response and network oracles
for course pages, content pages and file downloads (`none` models a
`requests` exception on the fetch). -/
structure CrawlEnv where
  vaultEnv : VaultEnv
  courseFetch : String → Option CoursePage
  pageFetch : String → Option (List PageItem)
  fileFetch : String → DlEnv

/-- `parse_course` (crawler.py lines 204-241): `None` on a request
exception, else the sidebar extraction (empty dict when the menu is
missing). -/
def parse_course (env : CrawlEnv) (u : String) : Option (List (String × MenuVal)) :=
  (env.courseFetch u).map fun p =>
    match p.menuItems with
    | none => []
    | some items => extract_sidebar_links p.courseId items

/-- `parse_page` (crawler.py lines 286-319): `None` on a request exception,
else the extracted file structure. -/
def parse_page (env : CrawlEnv) (u : String) : Option (List (String × Entry)) :=
  (env.pageFetch u).map extract_file_structure

/-- Returned boolean of the `download_file` call for one URL. -/
def dlOk (env : CrawlEnv) (u : String) : Bool :=
  (download_file (env.fileFetch u)).success

/-- Observable filesystem/network events of a crawl, in order. -/
inductive Ev where
  | wipe
  | mkdir (path : List String)
  | text (path : List String) (content : String)
  | dl (url : String) (ok : Bool)
  | termDone (t : String)
deriving DecidableEq

/-- Unhandled Python exceptions that abort `crawl`. -/
inductive CrawlErr where
  | vaultIndexErr
  | keyErr (t : String)
  | menuItemsErr
  | pageIterErr
deriving DecidableEq

/-- File loop of crawler.py lines 471-475: every listed file is downloaded
and the returned boolean is discarded. -/
def fileEvents (env : CrawlEnv) : List FileRef → List Ev
  | [] => []
  | f :: rest => Ev.dl f.url (dlOk env f.url) :: fileEvents env rest

/-- Entry body of crawler.py lines 458-475: make the entry directory, store
non-empty text, download each file. -/
def entryEvents (env : CrawlEnv) (ppath : List String) (nm : String) (e : Entry) : List Ev :=
  let epath := ppath ++ [nm]
  Ev.mkdir epath ::
    ((if e.text ≠ "" then [Ev.text epath e.text] else []) ++ fileEvents env e.files)

/-- Page body of crawler.py lines 445-475: make the page directory, extract
entries (`None` and `{}` both skipped by `if not entries: continue`). -/
def pageEvents (env : CrawlEnv) (spath : List String) (pg : SLink) : List Ev :=
  let ppath := spath ++ [sanitize pg.title]
  Ev.mkdir ppath ::
    (match parse_page env pg.url with
     | none => []
     | some entries =>
       if entries.isEmpty then []
       else entries.flatMap fun p => entryEvents env ppath p.1 p.2)

/-- Iterate the pages of one category. -/
def pagesEvents (env : CrawlEnv) (spath : List String) : List SLink → List Ev
  | [] => []
  | pg :: rest => pageEvents env spath pg ++ pagesEvents env spath rest

/-- One `sessions.items()` pair (crawler.py lines 441-475).  A bare root url
value is a string: iterating it crashes on `page["title"]` unless it is
empty. -/
def menuValEvents (env : CrawlEnv) (cpath : List String) (kv : String × MenuVal) :
    List Ev × Option CrawlErr :=
  let spath := cpath ++ [sanitize kv.1]
  match kv.2 with
  | .links pgs => (Ev.mkdir spath :: pagesEvents env spath pgs, none)
  | .url u => ([Ev.mkdir spath], if u = "" then none else some .pageIterErr)

/-- Iterate a course's menu entries, stopping at the first crash. -/
def menuEvents (env : CrawlEnv) (cpath : List String) :
    List (String × MenuVal) → List Ev × Option CrawlErr
  | [] => ([], none)
  | kv :: rest =>
    match (menuValEvents env cpath kv).2 with
    | some e => ((menuValEvents env cpath kv).1, some e)
    | none =>
      ((menuValEvents env cpath kv).1 ++ (menuEvents env cpath rest).1,
        (menuEvents env cpath rest).2)

/-- Course body of crawler.py lines 432-475: make the course directory, then
`sessions.items()` — an `AttributeError` when `parse_course` returned
`None`. -/
def courseEvents (env : CrawlEnv) (tpath : List String) (c : Course) :
    List Ev × Option CrawlErr :=
  let cpath := tpath ++ [sanitize c.name]
  match parse_course env c.url with
  | none => ([Ev.mkdir cpath], some .menuItemsErr)
  | some menu =>
    (Ev.mkdir cpath :: (menuEvents env cpath menu).1, (menuEvents env cpath menu).2)

/-- Iterate the courses of one term, stopping at the first crash. -/
def coursesEvents (env : CrawlEnv) (tpath : List String) :
    List Course → List Ev × Option CrawlErr
  | [] => ([], none)
  | c :: rest =>
    match (courseEvents env tpath c).2 with
    | some e => ((courseEvents env tpath c).1, some e)
    | none =>
      ((courseEvents env tpath c).1 ++ (coursesEvents env tpath rest).1,
        (coursesEvents env tpath rest).2)

/-- Term body of crawler.py lines 426-477: make the term directory, then
`vault[term]` — a `TypeError` when the vault is `None` or `[]`, a `KeyError`
when the term key is absent; on full success print the term-done message. -/
def termEvents (env : CrawlEnv) (t : String) : List Ev × Option CrawlErr :=
  match parse_vault env.vaultEnv with
  | .nullRes => ([Ev.mkdir [t]], some .vaultIndexErr)
  | .emptyList => ([Ev.mkdir [t]], some .vaultIndexErr)
  | .index d =>
    match lookupA d t with
    | none => ([Ev.mkdir [t]], some (.keyErr t))
    | some cs =>
      match (coursesEvents env [t] cs).2 with
      | none => (Ev.mkdir [t] :: (coursesEvents env [t] cs).1 ++ [Ev.termDone t], none)
      | some e => (Ev.mkdir [t] :: (coursesEvents env [t] cs).1, some e)

/-- Iterate the requested terms, stopping at the first crash. -/
def termsEvents (env : CrawlEnv) : List String → List Ev × Option CrawlErr
  | [] => ([], none)
  | t :: rest =>
    match (termEvents env t).2 with
    | some e => ((termEvents env t).1, some e)
    | none =>
      ((termEvents env t).1 ++ (termsEvents env rest).1, (termsEvents env rest).2)

/-- `crawl` (crawler.py lines 415-477): wipe and recreate the mirror root,
fetch the vault once, then traverse the requested terms.  The second
component is the unhandled exception that aborted the run, if any. -/
def crawl (env : CrawlEnv) (terms : List String) : List Ev × Option CrawlErr :=
  (Ev.wipe :: (termsEvents env terms).1, (termsEvents env terms).2)

/-! ## Concrete environments used by witnesses and counterexamples -/

/-- Course-list item for a course named `A` at path `/cA`. -/
def liA : CourseLi := ⟨some ("A", "/cA"), none⟩

/-- Course-list item for a course named `B` at path `/cB`. -/
def liB : CourseLi := ⟨some ("B", "/cB"), none⟩

/-- Environment with one term (`unknown`) holding courses `A` and `B`, where
fetching course `A`'s page raises a request exception and course `B`'s page
has an empty sidebar. -/
def envNavFail : CrawlEnv where
  vaultEnv := ⟨200, .parsed (some "x") [⟨"h", some [liA, liB]⟩]⟩
  courseFetch := fun u =>
    if u = "https://bb.sustech.edu.cn/cA" then none else some ⟨some [], none⟩
  pageFetch := fun _ => none
  fileFetch := fun _ => ⟨.ok 200 [1], .reqErr, none⟩

/-- Environment whose vault index holds exactly the term `unknown` with no
courses. -/
def envOneTerm : CrawlEnv where
  vaultEnv := ⟨200, .parsed (some "x") [⟨"h", none⟩]⟩
  courseFetch := fun _ => none
  pageFetch := fun _ => none
  fileFetch := fun _ => ⟨.reqErr, .reqErr, none⟩

/-! ## Helper lemmas -/

theorem stripPre_eq {p cs r : List Char} (h : stripPre p cs = some r) : cs = p ++ r := by
  induction p generalizing cs with
  | nil =>
    simp only [stripPre, Option.some.injEq] at h
    simp [h]
  | cons x xs ih =>
    cases cs with
    | nil => simp [stripPre] at h
    | cons c cs' =>
      simp only [stripPre] at h
      split at h
      · next heq => rw [heq, List.cons_append, ih h]
      · exact absurd h (by simp)

theorem readDigits4_eq {cs yr rest : List Char} (h : readDigits4 cs = some (yr, rest)) :
    cs = yr ++ rest ∧ yr.length = 4 ∧ ∀ c ∈ yr, c.isDigit = true := by
  cases cs with
  | nil => simp [readDigits4] at h
  | cons a t1 =>
    cases t1 with
    | nil => simp [readDigits4] at h
    | cons b t2 =>
      cases t2 with
      | nil => simp [readDigits4] at h
      | cons c t3 =>
        cases t3 with
        | nil => simp [readDigits4] at h
        | cons d t4 =>
          simp only [readDigits4] at h
          split at h
          · next hcond =>
            simp only [Option.some.injEq, Prod.mk.injEq] at h
            obtain ⟨h1, h2⟩ := h
            simp only [Bool.and_eq_true] at hcond
            subst h1 h2
            refine ⟨rfl, rfl, ?_⟩
            intro x hx
            simp only [List.mem_cons, List.not_mem_nil, or_false] at hx
            rcases hx with rfl | rfl | rfl | rfl
            · exact hcond.1.1.1
            · exact hcond.1.1.2
            · exact hcond.1.2
            · exact hcond.2
          · exact absurd h (by simp)

theorem matchSeason_eq {sn cs sn' yr : List Char}
    (h : matchSeason sn cs = some (sn', yr)) :
    sn' = sn ∧ yr.length = 4 ∧ (∀ c ∈ yr, c.isDigit = true) ∧
      ∃ r, cs = sn ++ ' ' :: (yr ++ '）' :: r) := by
  unfold matchSeason at h
  cases hs : stripPre sn cs with
  | none => rw [hs] at h; exact absurd h (by simp)
  | some r1 =>
    rw [hs] at h
    cases r1 with
    | nil => exact absurd h (by simp)
    | cons c0 r2 =>
      simp only at h
      split at h
      · next hc0 =>
        cases hd : readDigits4 r2 with
        | none => rw [hd] at h; exact absurd h (by simp)
        | some p =>
          obtain ⟨yr0, r3⟩ := p
          rw [hd] at h
          cases r3 with
          | nil => exact absurd h (by simp)
          | cons c1 r4 =>
            simp only at h
            split at h
            · next hc1 =>
              simp only [Option.some.injEq, Prod.mk.injEq] at h
              obtain ⟨hsn, hyr⟩ := h
              obtain ⟨he, hlen, hdig⟩ := readDigits4_eq hd
              subst hsn hyr hc0 hc1
              refine ⟨rfl, hlen, hdig, r4, ?_⟩
              rw [stripPre_eq hs, he]
            · exact absurd h (by simp)
      · exact absurd h (by simp)

theorem tryPattern_eq {cs sn yr : List Char} (h : tryPattern cs = some (sn, yr)) :
    (sn = "Spring".toList ∨ sn = "Fall".toList ∨ sn = "Summer".toList ∨ sn = "Winter".toList) ∧
      yr.length = 4 ∧ (∀ c ∈ yr, c.isDigit = true) ∧
      ∃ r, cs = sn ++ ' ' :: (yr ++ '）' :: r) := by
  unfold tryPattern at h
  cases h1 : matchSeason "Spring".toList cs with
  | some r =>
    rw [h1] at h
    simp only [Option.some.injEq] at h
    obtain ⟨hsn, h2, h3, h4⟩ := matchSeason_eq (h ▸ h1)
    exact ⟨Or.inl hsn, h2, h3, hsn.symm ▸ h4⟩
  | none =>
    rw [h1] at h
    cases h2 : matchSeason "Fall".toList cs with
    | some r =>
      rw [h2] at h
      simp only [Option.some.injEq] at h
      obtain ⟨hsn, ha, hb, hc⟩ := matchSeason_eq (h ▸ h2)
      exact ⟨Or.inr (Or.inl hsn), ha, hb, hsn.symm ▸ hc⟩
    | none =>
      rw [h2] at h
      cases h3 : matchSeason "Summer".toList cs with
      | some r =>
        rw [h3] at h
        simp only [Option.some.injEq] at h
        obtain ⟨hsn, ha, hb, hc⟩ := matchSeason_eq (h ▸ h3)
        exact ⟨Or.inr (Or.inr (Or.inl hsn)), ha, hb, hsn.symm ▸ hc⟩
      | none =>
        rw [h3] at h
        obtain ⟨hsn, ha, hb, hc⟩ := matchSeason_eq h
        exact ⟨Or.inr (Or.inr (Or.inr hsn)), ha, hb, hsn.symm ▸ hc⟩

theorem searchTermPattern_eq {s sn yr : List Char}
    (h : searchTermPattern s = some (sn, yr)) :
    (sn = "Spring".toList ∨ sn = "Fall".toList ∨ sn = "Summer".toList ∨ sn = "Winter".toList) ∧
      yr.length = 4 ∧ (∀ c ∈ yr, c.isDigit = true) ∧
      ∃ l r, s = l ++ '（' :: (sn ++ ' ' :: (yr ++ '）' :: r)) := by
  induction s with
  | nil => simp [searchTermPattern] at h
  | cons c cs ih =>
    rw [searchTermPattern] at h
    by_cases hc : c = '（'
    · rw [if_pos hc] at h
      cases ht : tryPattern cs with
      | some r =>
        rw [ht] at h
        simp only [Option.some.injEq] at h
        obtain ⟨hsn, ha, hb, rr, hcs⟩ := tryPattern_eq (h ▸ ht)
        exact ⟨hsn, ha, hb, [], rr, by rw [hc, hcs]; simp⟩
      | none =>
        rw [ht] at h
        obtain ⟨hsn, ha, hb, l, r, hcs⟩ := ih h
        exact ⟨hsn, ha, hb, c :: l, r, by rw [hcs]; simp⟩
    · rw [if_neg hc] at h
      obtain ⟨hsn, ha, hb, l, r, hcs⟩ := ih h
      exact ⟨hsn, ha, hb, c :: l, r, by rw [hcs]; simp⟩

/-! ## C3 -/

/-- C3: for every term-heading string, a heading matching the parenthesized
pattern `（(Spring|Fall|Summer|Winter) YYYY）` (the match really occurring in
the heading, with a four-digit year group) derives the term key consisting
of the last two digits of the year followed by the lower-cased season, and
every non-matching heading derives the key `"unknown"`. -/
theorem c3_term_key_derivation (s : String) :
    (∀ sn yr, searchTermPattern s.toList = some (sn, yr) →
      (sn = "Spring".toList ∨ sn = "Fall".toList ∨ sn = "Summer".toList ∨
        sn = "Winter".toList) ∧
      yr.length = 4 ∧ (∀ c ∈ yr, c.isDigit = true) ∧
      (∃ l r, s.toList = l ++ '（' :: (sn ++ ' ' :: (yr ++ '）' :: r))) ∧
      parseTermName s = String.mk (lastTwo yr ++ lowerStr sn)) ∧
    (searchTermPattern s.toList = none → parseTermName s = "unknown") := by
  constructor
  · intro sn yr h
    obtain ⟨h1, h2, h3, h4⟩ := searchTermPattern_eq h
    refine ⟨h1, h2, h3, h4, ?_⟩
    unfold parseTermName
    rw [h]
  · intro h
    unfold parseTermName
    rw [h]

/-- Witness for C3 at the heading `（Fall 2025）`. -/
theorem c3_term_key_derivation_witness : parseTermName "（Fall 2025）" = "25fall" := by
  have h := (c3_term_key_derivation "（Fall 2025）").1 "Fall".toList "2025".toList (by decide)
  exact h.2.2.2.2.trans (by decide)

/-! ## C6 -/

/-- C6: if the fetched CAS form contains no input field named `execution`,
`login` returns false with the two page fetches as its only network actions
— in particular it performs no credential submission, and the returned
success flag (the sole marker of an authenticated session) stays false. -/
theorem c6_login_requires_execution (env : LoginEnv)
    (h : findInputVal "execution" env.casInputs = none) :
    login env = ⟨false, [.getLoginPage, .getCasForm]⟩ ∧
    LoginAct.postCreds ∉ (login env).actions := by
  have he : login env = ⟨false, [.getLoginPage, .getCasForm]⟩ := by
    unfold login
    rw [h]
  refine ⟨he, ?_⟩
  rw [he]
  decide

/-- Witness for C6: a CAS form holding only a `username` input. -/
theorem c6_login_requires_execution_witness :
    login ⟨[⟨"username", some "u"⟩], "logout"⟩ = ⟨false, [.getLoginPage, .getCasForm]⟩ :=
  (c6_login_requires_execution ⟨[⟨"username", some "u"⟩], "logout"⟩ (by decide)).1

/-! ## C7 -/

/-- C7: a TLS-specific failure of the verification-enabled attempt triggers
exactly one retry with verification disabled; if that retry also fails at
the transport level, or if the first attempt fails with any non-TLS
transport error, `download_file` (a total function, so never raising)
returns false with the destination untouched; and a first attempt that
yields a response never triggers a second request. -/
theorem c7_tls_fallback (env : DlEnv) :
    (env.first = .sslErr → (download_file env).verifyFlags = [true, false]) ∧
    (env.first = .sslErr → (env.second = .sslErr ∨ env.second = .reqErr) →
      download_file env = ⟨false, [true, false], .untouched⟩) ∧
    (env.first = .reqErr → download_file env = ⟨false, [true], .untouched⟩) ∧
    (∀ st body, env.first = .ok st body → (download_file env).verifyFlags = [true]) := by
  refine ⟨?_, ?_, ?_, ?_⟩
  · intro h1
    unfold download_file
    rw [h1]
    cases h2 : env.second with
    | ok st body =>
      unfold writeBody
      cases env.writeFail <;> rfl
    | sslErr => rfl
    | reqErr => rfl
  · intro h1 h2
    unfold download_file
    rw [h1]
    rcases h2 with h2 | h2 <;> rw [h2]
  · intro h1
    unfold download_file
    rw [h1]
  · intro st body h1
    simp only [download_file, h1]
    split
    · rfl
    · unfold writeBody
      cases env.writeFail <;> rfl

/-- Witness for C7: TLS failure then transport failure on the retry. -/
theorem c7_tls_fallback_witness :
    download_file ⟨.sslErr, .reqErr, none⟩ = ⟨false, [true, false], .untouched⟩ :=
  (c7_tls_fallback ⟨.sslErr, .reqErr, none⟩).2.1 rfl (Or.inr rfl)

/-! ## C8 -/

/-- C8 counterexample: after a TLS failure on the first attempt, the
verification-disabled retry receives a 404 response; `download_file`
nevertheless returns true and writes the error body to the destination —
the claim demanded false and no written body on both attempts alike. -/
theorem c8_counterexample :
    download_file ⟨.sslErr, .ok 404 [7, 7], none⟩ = ⟨true, [true, false], .wrote [7, 7]⟩ ∧
    httpErrStatus 404 = true := by
  exact ⟨rfl, rfl⟩

/-- C8 (amended): a non-success HTTP status makes `download_file` return
false with the destination untouched on the verification-enabled attempt
only; on the verification-disabled retry the status is never checked — the
response body is written and success reported whenever the local write
succeeds. -/
theorem c8_status_check_first_attempt_only (env : DlEnv) :
    (∀ st body, env.first = .ok st body → httpErrStatus st = true →
      download_file env = ⟨false, [true], .untouched⟩) ∧
    (∀ st body, env.first = .sslErr → env.second = .ok st body → env.writeFail = none →
      download_file env = ⟨true, [true, false], .wrote body⟩) := by
  constructor
  · intro st body h1 h2
    simp only [download_file, h1]
    rw [if_pos h2]
  · intro st body h1 h2 h3
    unfold download_file
    rw [h1, h2]
    unfold writeBody
    rw [h3]

/-- Witness for C8 (amended): a 500 on the verification-enabled attempt. -/
theorem c8_status_check_first_attempt_only_witness :
    download_file ⟨.ok 500 [1], .reqErr, none⟩ = ⟨false, [true], .untouched⟩ :=
  (c8_status_check_first_attempt_only ⟨.ok 500 [1], .reqErr, none⟩).1 500 [1] rfl (by decide)

/-! ## C9 -/

theorem foldAnns_last (pre : List AnnAnchor) (last : AnnAnchor) :
    foldAnns (pre ++ [last]) =
      ⟨some (pyStrip last.text), some (bbBase ++ pyStrip last.href)⟩ := by
  unfold foldAnns
  rw [List.foldl_append]
  rfl

/-- C9: the announcement state holds at most one content/url pair; for a
non-empty anchor list it is exactly the last anchor's stripped text and
origin-prefixed href (later anchors overwrite earlier ones), and that state
is what the course record built from the list item stores. -/
theorem c9_announcement_last_wins :
    (foldAnns [] = ⟨none, none⟩) ∧
    (∀ pre last, foldAnns (pre ++ [last]) =
      ⟨some (pyStrip last.text), some (bbBase ++ pyStrip last.href)⟩) ∧
    (∀ li txt href ans pre last, li.link = some (txt, href) →
      containsSub "announcement" href = false →
      li.dataBlock = some ans → ans = pre ++ [last] →
      courseOfLi li = some ⟨pyStrip txt, bbBase ++ pyStrip href,
        some (pyStrip last.text), some (bbBase ++ pyStrip last.href)⟩) := by
  refine ⟨rfl, foldAnns_last, ?_⟩
  intro li txt href ans pre last h1 h2 h3 h4
  subst h4
  simp [courseOfLi, h1, h2, h3, foldAnns_last]

/-- Witness for C9: two announcement anchors, the second one is kept. -/
theorem c9_announcement_last_wins_witness :
    courseOfLi ⟨some ("N", "/c"), some [⟨"a1", "/u1"⟩, ⟨"a2", "/u2"⟩]⟩ =
      some ⟨"N", "https://bb.sustech.edu.cn/c",
        some "a2", some "https://bb.sustech.edu.cn/u2"⟩ := by
  have h := c9_announcement_last_wins.2.2
    ⟨some ("N", "/c"), some [⟨"a1", "/u1"⟩, ⟨"a2", "/u2"⟩]⟩
    "N" "/c" [⟨"a1", "/u1"⟩, ⟨"a2", "/u2"⟩] [⟨"a1", "/u1"⟩] ⟨"a2", "/u2"⟩
    rfl (by decide) rfl rfl
  exact h.trans (by decide)

/-! ## C10 -/

/-- C10: `parse_vault` returns the empty collection — not null — on a
non-success HTTP status and on a missing or empty envelope body text, while
the null result occurs exactly when a 200 response carries XML that fails to
parse. -/
theorem c10_parse_vault_failure_modes (env : VaultEnv) :
    (env.status < 200 ∨ 300 ≤ env.status → parse_vault env = .emptyList) ∧
    (∀ rt terms, env.xml = .parsed rt terms → rt = none ∨ rt = some "" →
      parse_vault env = .emptyList) ∧
    (parse_vault env = .nullRes ↔ env.status = 200 ∧ env.xml = .malformed) := by
  refine ⟨?_, ?_, ?_⟩
  · intro h
    have hne : env.status ≠ 200 := by omega
    unfold parse_vault
    rw [if_pos hne]
  · intro rt terms h1 h2
    unfold parse_vault
    by_cases hs : env.status ≠ 200
    · rw [if_pos hs]
    · rw [if_neg hs, h1]
      rcases h2 with rfl | rfl
      · rfl
      · simp
  · constructor
    · intro h
      unfold parse_vault at h
      split at h
      · exact absurd h (by simp)
      · next hs =>
        cases hx : env.xml with
        | malformed => exact ⟨not_not.mp hs, rfl⟩
        | parsed rt terms =>
          rw [hx] at h
          cases rt with
          | none => exact absurd h (by simp)
          | some t =>
            simp only at h
            split at h
            · exact absurd h (by simp)
            · exact absurd h (by simp)
    · rintro ⟨h1, h2⟩
      simp [parse_vault, h1, h2]

/-- Witness for C10: a 404 yields the empty collection, a malformed 200
yields null. -/
theorem c10_parse_vault_failure_modes_witness :
    parse_vault ⟨404, .malformed⟩ = .emptyList ∧
    parse_vault ⟨200, .malformed⟩ = .nullRes := by
  refine ⟨(c10_parse_vault_failure_modes ⟨404, .malformed⟩).1 (Or.inr (by decide)), ?_⟩
  exact (c10_parse_vault_failure_modes ⟨200, .malformed⟩).2.2.mpr ⟨rfl, rfl⟩

/-! ## C4 -/

theorem sidebarGo_nil (cidO : Option String) (cur : Option String)
    (acc : List (String × MenuVal)) : sidebarGo cidO cur acc [] = acc := rfl

theorem sidebarGo_heading (cidO cur : Option String) (acc : List (String × MenuVal))
    (h : String) (a : Option (String × String)) (rest : List MenuItem) :
    sidebarGo cidO cur acc (⟨some h, a⟩ :: rest) =
      sidebarGo cidO (some (pyStrip h)) (insertReplace acc (pyStrip h) (MenuVal.links [])) rest :=
  rfl

theorem sidebarGo_link_root (cidO : Option String) (acc : List (String × MenuVal))
    (txt href : String) (rest : List MenuItem) :
    sidebarGo cidO none acc (⟨none, some (txt, href)⟩ :: rest) =
      sidebarGo cidO none
        (insertReplace acc (pyStrip txt) (MenuVal.url (linkUrlFor cidO (pyStrip txt) href)))
        rest :=
  rfl

theorem sidebarGo_link_emptycat (cidO : Option String) (acc : List (String × MenuVal))
    (txt href : String) (rest : List MenuItem) :
    sidebarGo cidO (some "") acc (⟨none, some (txt, href)⟩ :: rest) =
      sidebarGo cidO (some "")
        (insertReplace acc (pyStrip txt) (MenuVal.url (linkUrlFor cidO (pyStrip txt) href)))
        rest := by
  simp [sidebarGo]

theorem sidebarGo_link_cat (cidO : Option String) (c : String)
    (acc : List (String × MenuVal)) (txt href : String) (rest : List MenuItem)
    (hc : c ≠ "") :
    sidebarGo cidO (some c) acc (⟨none, some (txt, href)⟩ :: rest) =
      sidebarGo cidO (some c)
        (appendSLink acc c ⟨pyStrip txt, linkUrlFor cidO (pyStrip txt) href⟩) rest := by
  simp [sidebarGo, hc]

/-- C4 counterexample: a heading whose text strips to the empty string opens
the (empty-named) category, yet the link item that follows it is stored at
the menu root as a bare pair instead of being appended to that most recently
opened category — the Python guard `if current_category:` treats the empty
category name as no category. -/
theorem c4_counterexample :
    extract_sidebar_links none [⟨some " ", some ("X", "/x")⟩, ⟨none, some ("A", "/a")⟩] =
      [("", MenuVal.links []), ("A", MenuVal.url "https://bb.sustech.edu.cn/a")] ∧
    lookupA (extract_sidebar_links none
        [⟨some " ", some ("X", "/x")⟩, ⟨none, some ("A", "/a")⟩]) "" ≠
      some (MenuVal.links [⟨"A", "https://bb.sustech.edu.cn/a"⟩]) := by
  decide

/-- C4 (amended): on a sidebar whose headings strip to distinct non-empty
texts, links are distributed in document order — a heading item opens a new
empty category named by its stripped text and contributes no link even when
it also contains an anchor, each subsequent link item is appended to the
most recently opened category, and a link item before any heading is stored
at the menu root as a bare title→url pair; however, after a heading whose
text strips to the empty string, link items are stored at the menu root
exactly as if no category were open. -/
theorem c4_sidebar_distribution (cidO : Option String)
    (t0 u0 z1 y1 h1 t1 u1 t2 u2 z2 y2 h2 t3 u3 : String)
    (hH1 : pyStrip h1 ≠ "") (hH2 : pyStrip h2 ≠ "")
    (hH12 : pyStrip h1 ≠ pyStrip h2)
    (hT0H1 : pyStrip t0 ≠ pyStrip h1) (hT0H2 : pyStrip t0 ≠ pyStrip h2)
    (hA0 : containsSub "Announcements" (pyStrip t0) = false)
    (hA1 : containsSub "Announcements" (pyStrip t1) = false)
    (hA2 : containsSub "Announcements" (pyStrip t2) = false)
    (hA3 : containsSub "Announcements" (pyStrip t3) = false) :
    (extract_sidebar_links cidO
      [⟨none, some (t0, u0)⟩, ⟨some h1, some (z1, y1)⟩, ⟨none, some (t1, u1)⟩,
       ⟨none, some (t2, u2)⟩, ⟨some h2, some (z2, y2)⟩, ⟨none, some (t3, u3)⟩] =
      [(pyStrip t0, MenuVal.url (bbBase ++ u0)),
       (pyStrip h1, MenuVal.links
          [⟨pyStrip t1, bbBase ++ u1⟩, ⟨pyStrip t2, bbBase ++ u2⟩]),
       (pyStrip h2, MenuVal.links [⟨pyStrip t3, bbBase ++ u3⟩])]) ∧
    (∀ acc txt href rest,
      sidebarGo cidO (some "") acc (⟨none, some (txt, href)⟩ :: rest) =
        sidebarGo cidO (some "")
          (insertReplace acc (pyStrip txt) (MenuVal.url (linkUrlFor cidO (pyStrip txt) href)))
          rest) := by
  constructor
  · unfold extract_sidebar_links
    rw [sidebarGo_link_root, sidebarGo_heading, sidebarGo_link_cat _ _ _ _ _ _ hH1,
      sidebarGo_link_cat _ _ _ _ _ _ hH1, sidebarGo_heading,
      sidebarGo_link_cat _ _ _ _ _ _ hH2, sidebarGo_nil]
    simp [insertReplace, appendSLink, linkUrlFor, hT0H1, hT0H2, hH12, hA0, hA1, hA2, hA3]
  · intro acc txt href rest
    exact sidebarGo_link_emptycat cidO acc txt href rest

/-- Witness for C4 (amended): one root link, two categories with two and one
links. -/
theorem c4_sidebar_distribution_witness :
    extract_sidebar_links none
      [⟨none, some ("R", "/r")⟩, ⟨some "C1", some ("Z", "/z")⟩, ⟨none, some ("L1", "/1")⟩,
       ⟨none, some ("L2", "/2")⟩, ⟨some "C2", some ("Z", "/z")⟩, ⟨none, some ("L3", "/3")⟩] =
      [("R", MenuVal.url "https://bb.sustech.edu.cn/r"),
       ("C1", MenuVal.links
          [⟨"L1", "https://bb.sustech.edu.cn/1"⟩, ⟨"L2", "https://bb.sustech.edu.cn/2"⟩]),
       ("C2", MenuVal.links [⟨"L3", "https://bb.sustech.edu.cn/3"⟩])] := by
  have h := (c4_sidebar_distribution none "R" "/r" "Z" "/z" "C1" "L1" "/1" "L2" "/2"
      "Z" "/z" "C2" "L3" "/3" (by decide) (by decide) (by decide) (by decide) (by decide)
      (by decide) (by decide) (by decide) (by decide)).1
  exact h.trans (by decide)

/-! ## C5 -/

theorem filesList_spec (ans : List (Option FileAnchor)) :
    extractFilesList ans = keptFilesSpec ans := by
  induction ans with
  | nil => rfl
  | cons a? rest ih =>
    cases a? with
    | none =>
      simp [extractFilesList, keptFilesSpec] at ih ⊢
      exact ih
    | some a =>
      cases hc : startsWithStr "#" (pyStrip a.href) <;>
        cases hcc : containsSub "close" (pyStrip a.href) <;>
          by_cases hn : pyStrip a.text = "" <;>
            · simp [extractFilesList, keptFilesSpec, hc, hcc, hn, beq_iff_eq] at ih ⊢
              try exact ih
              try simp [ih]

theorem mem_insertReplace {α β : Type} [DecidableEq α] {l : List (α × β)} {k : α} {v : β}
    {p : α × β} (h : p ∈ insertReplace l k v) : p ∈ l ∨ p = (k, v) := by
  induction l with
  | nil =>
    simp only [insertReplace, List.mem_singleton] at h
    exact Or.inr h
  | cons kv rest ih =>
    obtain ⟨k0, v0⟩ := kv
    simp only [insertReplace] at h
    split at h
    · rcases List.mem_cons.mp h with h2 | h2
      · exact Or.inr h2
      · exact Or.inl (List.mem_cons_of_mem _ h2)
    · rcases List.mem_cons.mp h with h2 | h2
      · exact Or.inl (h2 ▸ List.mem_cons_self _ _)
      · rcases ih h2 with h3 | h3
        · exact Or.inl (List.mem_cons_of_mem _ h3)
        · exact Or.inr h3

theorem extract_file_structure_mem_aux (items : List PageItem)
    (acc : List (String × Entry)) (t : String) (e : Entry)
    (h : (t, e) ∈ items.foldl
      (fun acc it =>
        match it.weekTitle with
        | none => acc
        | some wt =>
          insertReplace acc (pyStrip wt) ⟨it.details.getD "", extractFilesList it.fileAnchors⟩)
      acc) :
    (t, e) ∈ acc ∨ ∃ it, it ∈ items ∧
      e = ⟨it.details.getD "", extractFilesList it.fileAnchors⟩ := by
  induction items generalizing acc with
  | nil => exact Or.inl h
  | cons it rest ih =>
    rw [List.foldl_cons] at h
    rcases ih _ h with h1 | ⟨it', hmem, he⟩
    · cases hw : it.weekTitle with
      | none =>
        rw [hw] at h1
        exact Or.inl h1
      | some wt =>
        rw [hw] at h1
        rcases mem_insertReplace h1 with h2 | h2
        · exact Or.inl h2
        · refine Or.inr ⟨it, List.mem_cons_self _ _, ?_⟩
          exact congrArg Prod.snd h2
    · exact Or.inr ⟨it', List.mem_cons_of_mem _ hmem, he⟩

/-- C5 counterexample: an anchor whose stripped href neither is an in-page
fragment nor contains "close", but whose display text strips to the empty
string, yields no kept file — the claim demanded every remaining anchor be
kept. -/
theorem c5_counterexample :
    extractFilesList [some ⟨" ", "/f.pdf"⟩] = [] ∧
    startsWithStr "#" (pyStrip "/f.pdf") = false ∧
    containsSub "close" (pyStrip "/f.pdf") = false := by
  decide

/-- C5 (amended): an entry's kept files are exactly the per-item first
anchors whose stripped href is not a pure fragment (`#...`) and does not
contain the substring "close" and whose stripped display text is non-empty,
in document order, with hrefs not starting with `http` rebased onto the
portal origin; and every entry stored by `extract_file_structure` got its
files that way from one of the page's items. -/
theorem c5_file_anchor_filter :
    (∀ ans, extractFilesList ans = keptFilesSpec ans) ∧
    (∀ items t e, (t, e) ∈ extract_file_structure items →
      ∃ it, it ∈ items ∧ e.files = keptFilesSpec it.fileAnchors) := by
  refine ⟨filesList_spec, ?_⟩
  intro items t e h
  unfold extract_file_structure at h
  rcases extract_file_structure_mem_aux items [] t e h with h1 | ⟨it, hmem, he⟩
  · exact absurd h1 (List.not_mem_nil _)
  · exact ⟨it, hmem, by rw [he, ← filesList_spec]⟩

/-- Witness for C5 (amended): one item with one valid anchor. -/
theorem c5_file_anchor_filter_witness :
    ∃ it, it ∈ [(⟨some "W", some "txt", [some ⟨"n", "/f"⟩]⟩ : PageItem)] ∧
      (Entry.mk "txt" [⟨"n", "https://bb.sustech.edu.cn/f"⟩]).files =
        keptFilesSpec it.fileAnchors :=
  c5_file_anchor_filter.2 [⟨some "W", some "txt", [some ⟨"n", "/f"⟩]⟩] "W"
    ⟨"txt", [⟨"n", "https://bb.sustech.edu.cn/f"⟩]⟩ (by decide)

/-! ## C1 and C2 -/

theorem termsEvents_cons_err (env : CrawlEnv) (t : String) (rest : List String)
    (e : CrawlErr) (h : (termEvents env t).2 = some e) :
    termsEvents env (t :: rest) = ((termEvents env t).1, some e) := by
  simp only [termsEvents]
  rw [h]

theorem termsEvents_cons_ok (env : CrawlEnv) (t : String) (rest : List String)
    (h : (termEvents env t).2 = none) :
    termsEvents env (t :: rest) =
      ((termEvents env t).1 ++ (termsEvents env rest).1, (termsEvents env rest).2) := by
  simp only [termsEvents]
  rw [h]

/-- C1: `crawl` does not skip a course whose navigation (`parse_course`)
returned `None`: the subsequent `sessions.items()` raises and the whole
traversal aborts, so the sibling course `B` of the failed course `A` is
never reached and the term is never completed — contradicting the claimed
non-unwinding behaviour (page extraction returning `None` and failed
downloads are indeed survived: those paths never set the error channel). -/
theorem c1_crawl_aborts_on_navigation_failure :
    crawl envNavFail ["unknown"] =
      ([.wipe, .mkdir ["unknown"], .mkdir ["unknown", "A"]], some .menuItemsErr) ∧
    Ev.mkdir ["unknown", "B"] ∉ (crawl envNavFail ["unknown"]).1 ∧
    Ev.termDone "unknown" ∉ (crawl envNavFail ["unknown"]).1 := by
  decide

/-- C2 counterexample: with the vault index holding only the term `unknown`,
`crawl` on `["zz", "unknown"]` aborts at the absent term `zz` with a
`KeyError` and the present term `unknown` is never processed — the claim
demanded the absent term be skipped without affecting the remaining ones. -/
theorem c2_counterexample :
    (crawl envOneTerm ["zz", "unknown"]).2 = some (.keyErr "zz") ∧
    Ev.termDone "unknown" ∉ (crawl envOneTerm ["zz", "unknown"]).1 := by
  decide

/-- C2 (amended): `run` processes each requested term present in the index
in order — a present term whose course traversal completes contributes its
events followed by its term-done message — but a requested term absent from
the index is not skipped: the `vault[term]` lookup aborts the whole run with
a `KeyError` right after the term directory is created, and neither that
term nor any later requested term is processed. -/
theorem c2_absent_term_aborts_run (env : CrawlEnv) :
    (∀ d t cs, parse_vault env.vaultEnv = .index d → lookupA d t = some cs →
      (coursesEvents env [t] cs).2 = none →
      termEvents env t =
        (Ev.mkdir [t] :: (coursesEvents env [t] cs).1 ++ [Ev.termDone t], none)) ∧
    (∀ d ts1 t ts2, parse_vault env.vaultEnv = .index d →
      (termsEvents env ts1).2 = none → lookupA d t = none →
      crawl env (ts1 ++ t :: ts2) =
        (Ev.wipe :: ((termsEvents env ts1).1 ++ [Ev.mkdir [t]]), some (.keyErr t))) := by
  constructor
  · intro d t cs h1 h2 h3
    simp only [termEvents, h1, h2, h3]
  · intro d ts1 t ts2 h1 h2 h3
    have ht : termEvents env t = ([Ev.mkdir [t]], some (.keyErr t)) := by
      simp only [termEvents, h1, h3]
    have key : ∀ (l : List String), (termsEvents env l).2 = none →
        termsEvents env (l ++ t :: ts2) =
          ((termsEvents env l).1 ++ [Ev.mkdir [t]], some (.keyErr t)) := by
      intro l
      induction l with
      | nil =>
        intro _
        have ht2 : (termEvents env t).2 = some (.keyErr t) := by rw [ht]
        rw [List.nil_append, termsEvents_cons_err env t ts2 _ ht2]
        simp [ht, termsEvents]
      | cons t' l' ih =>
        intro hnone
        have hsplit : (termEvents env t').2 = none ∧ (termsEvents env l').2 = none := by
          cases hx : (termEvents env t').2 with
          | some e =>
            rw [termsEvents_cons_err env t' l' e hx] at hnone
            simp at hnone
          | none =>
            rw [termsEvents_cons_ok env t' l' hx] at hnone
            exact ⟨rfl, hnone⟩
        rw [List.cons_append, termsEvents_cons_ok env t' _ hsplit.1, ih hsplit.2,
          termsEvents_cons_ok env t' l' hsplit.1]
        simp
    have hk := key ts1 h2
    simp [crawl, hk]

/-- Witness for C2 (amended): the present term `unknown` is fully processed,
then the absent term `zz` aborts the run. -/
theorem c2_absent_term_aborts_run_witness :
    crawl envOneTerm ["unknown", "zz"] =
      ([.wipe, .mkdir ["unknown"], .termDone "unknown", .mkdir ["zz"]],
        some (.keyErr "zz")) := by
  have h := (c2_absent_term_aborts_run envOneTerm).2 [("unknown", [])] ["unknown"] "zz" []
    (by decide) (by decide) (by decide)
  exact h.trans (by decide)
